import Mathlib

/-!
Shallow embedding of the qdb data-access layer (database.go).

The database session is modelled as an explicit list of rows, the underlying
fallible engine primitives (gorm `Create`, `Updates`, `Save`, `Delete`,
`Find`) as state transformers parameterized by an error oracle, and each
`Dao[T]` method as a Lean function mirroring the Go control flow line by line.
Entity types are represented by the `DbFull` shape (Id, LastTime, opaque
payload fields); the reflective `LastTime` access compares against the string
sentinel exactly as `qreflect.Get` renders it.
-/

namespace QDb

/-- The zero sentinel that `qreflect.Get "LastTime"` renders for an unset
`qtime.DateTime`, compared against literally in every write path. -/
def zeroTimeStr : String := "0001-01-01 00:00:00"

/-- A row / entity instance: `Id uint64`, `LastTime` (as its string
rendering), and the opaque payload columns collapsed into one field. -/
structure DbModel where
  id : Nat
  lastTime : String
  fullInfo : String
deriving DecidableEq, Repr

/-- The table contents behind the shared connection. -/
structure Db where
  rows : List DbModel
deriving DecidableEq, Repr

/-- Error oracles for the engine primitives: gorm surfaces backend errors
(constraint violations, lost connectivity, ...) opaquely to this layer, so
each primitive consults an oracle deciding whether that call fails and with
which message. A failing call leaves the stored state unchanged. -/
structure Engine where
  createErr : List DbModel → DbModel → Option String
  updateErr : List DbModel → DbModel → Option String
  saveErr : List DbModel → DbModel → Option String
  deleteErr : List DbModel → Nat → Option String
  queryErr : List DbModel → Option String

/-- An engine on which no primitive ever fails. -/
def pureEngine : Engine :=
  { createErr := fun _ _ => none
    updateErr := fun _ _ => none
    saveErr := fun _ _ => none
    deleteErr := fun _ _ => none
    queryErr := fun _ => none }

/-- An engine whose insert fails (message `e`) exactly when a row with the
same primary key already exists — the uniqueness constraint on `Id`. -/
def uniqueIdEngine (e : String) : Engine :=
  { createErr := fun rows m => if rows.any (fun r => r.id = m.id) then some e else none
    updateErr := fun _ _ => none
    saveErr := fun _ _ => none
    deleteErr := fun _ _ => none
    queryErr := fun _ => none }

/-- Timestamp stamping, `if ref.Get("LastTime") == "0001-01-01 00:00:00" then ref.Set("LastTime", now)`:
stamp the audit timestamp with the current instant iff it is at the sentinel. -/
def stampLastTime (now : String) (m : DbModel) : DbModel :=
  if m.lastTime = zeroTimeStr then { m with lastTime := now } else m

/-- gorm `db.Create(model)`: append one row, unless the engine rejects it. -/
def gormCreate (eng : Engine) (db : Db) (m : DbModel) : Option String × Db :=
  match eng.createErr db.rows m with
  | some e => (some e, db)
  | none => (none, ⟨db.rows ++ [m]⟩)

/-- gorm `db.Model(model).Updates(model)`: update every row whose primary key
matches `m.id`; reports the error and the number of rows affected. -/
def gormUpdates (eng : Engine) (db : Db) (m : DbModel) : Option String × Nat × Db :=
  match eng.updateErr db.rows m with
  | some e => (some e, 0, db)
  | none =>
    ((none : Option String), (db.rows.filter (fun r => r.id = m.id)).length,
      ⟨db.rows.map fun r => if r.id = m.id then m else r⟩)

/-- gorm `db.Save(model)`: upsert keyed on the primary key — update the
matching row when one exists, insert otherwise. -/
def gormSave (eng : Engine) (db : Db) (m : DbModel) : Option String × Db :=
  match eng.saveErr db.rows m with
  | some e => (some e, db)
  | none =>
    if db.rows.any (fun r => r.id = m.id) then
      ((none : Option String), ⟨db.rows.map fun r => if r.id = m.id then m else r⟩)
    else (none, ⟨db.rows ++ [m]⟩)

/-- gorm `db.Where("id = ?", id).Delete(new(T))`: drop every matching row. -/
def gormDelete (eng : Engine) (db : Db) (i : Nat) : Option String × Db :=
  match eng.deleteErr db.rows i with
  | some e => (some e, db)
  | none => (none, ⟨db.rows.filter fun r => ¬ r.id = i⟩)

/-- gorm `Find(&list)` into a slice initialised by `make([]T, 0)`: on a query
error the destination keeps its initial non-nil empty value; on success it
holds the selected rows, with `RowsAffected` their count. A Go slice is
`Option (List DbModel)`, `none` standing for the nil slice. -/
def gormFindList (eng : Engine) (rows sel : List DbModel) :
    Option String × Nat × Option (List DbModel) :=
  match eng.queryErr rows with
  | some e => (some e, 0, some [])
  | none => (none, sel.length, some sel)

/-- The epilogue shared by every list query:
`if result.Error != nil || result.RowsAffected == 0 { return list, result.Error };
return list, nil`. -/
def findEpilogue (x : Option String × Nat × Option (List DbModel)) :
    Option (List DbModel) × Option String :=
  match x with
  | (some e, _, list) => (list, some e)
  | (none, 0, list) => (list, none)
  | (none, _, list) => (list, none)

/-- gorm `Transaction(fn)`: run `fn` on the transaction state; commit on
success, roll the state back (and surface the error) on failure. -/
def transaction (db : Db) (f : Db → Except String Db) : Option String × Db :=
  match f db with
  | .error e => (some e, db)
  | .ok db2 => (none, db2)

namespace Dao

/-- Method `Dao.Create`: stamp `LastTime` at the sentinel, then submit one insert. -/
def Create (eng : Engine) (now : String) (db : Db) (model : DbModel) :
    Option String × Db :=
  let m := stampLastTime now model
  gormCreate eng db m

/-- The loop body of `Dao.CreateList` inside the transaction. The loop runs
`for _, model := range list`, so `model` is a by-value copy and
`qreflect.New(model)` boxes yet another copy: the `LastTime` stamp mutates
only that discarded copy (`_stampedCopy` below), and `tx.Create(&model)`
submits the original, unstamped model. The loop aborts on the first error. -/
def createListTx (eng : Engine) (now : String) : List DbModel → Db → Except String Db
  | [], db => .ok db
  | model :: rest, db =>
    let _stampedCopy := stampLastTime now model
    match gormCreate eng db model with
    | (some e, _) => .error e
    | (none, db2) => createListTx eng now rest db2

/-- Method `Dao.CreateList`: all inserts inside one transaction. -/
def CreateList (eng : Engine) (now : String) (db : Db) (list : List DbModel) :
    Option String × Db :=
  transaction db (createListTx eng now list)

/-- Method `Dao.Update`: stamp, run `Updates`, then return nil when rows were
affected, the execution error when one occurred, and a "record does not
exist" error when zero rows matched without an error. -/
def Update (eng : Engine) (now : String) (db : Db) (model : DbModel) :
    Option String × Db :=
  let m := stampLastTime now model
  match gormUpdates eng db m with
  | (err, n, db2) =>
    if 0 < n then (none, db2)
    else
      match err with
      | some e => (some e, db2)
      | none => (some "update record does not exist", db2)

/-- The loop body of `Dao.UpdateList`: as in `createListTx`, the stamp is
applied to a discarded by-value copy and `tx.Updates(&model)` submits the
original, unstamped model; the loop aborts only on an execution error (rows
affected are not inspected). -/
def updateListTx (eng : Engine) (now : String) : List DbModel → Db → Except String Db
  | [], db => .ok db
  | model :: rest, db =>
    let _stampedCopy := stampLastTime now model
    match gormUpdates eng db model with
    | (some e, _, _) => .error e
    | (none, _, db2) => updateListTx eng now rest db2

/-- Method `Dao.UpdateList`: all updates inside one transaction. -/
def UpdateList (eng : Engine) (now : String) (db : Db) (list : List DbModel) :
    Option String × Db :=
  transaction db (updateListTx eng now list)

/-- Method `Dao.Save`: stamp, then upsert. -/
def Save (eng : Engine) (now : String) (db : Db) (model : DbModel) :
    Option String × Db :=
  let m := stampLastTime now model
  gormSave eng db m

/-- The loop body of `Dao.SaveList`: as in `createListTx`, the stamp is
applied to a discarded by-value copy and `tx.Save(&model)` submits the
original, unstamped model; the loop aborts on the first error. -/
def saveListTx (eng : Engine) (now : String) : List DbModel → Db → Except String Db
  | [], db => .ok db
  | model :: rest, db =>
    let _stampedCopy := stampLastTime now model
    match gormSave eng db model with
    | (some e, _) => .error e
    | (none, db2) => saveListTx eng now rest db2

/-- Method `Dao.SaveList`: all upserts inside one transaction. -/
def SaveList (eng : Engine) (now : String) (db : Db) (list : List DbModel) :
    Option String × Db :=
  transaction db (saveListTx eng now list)

/-- Method `Dao.Delete`: delete by id, returning only the execution error. -/
def Delete (eng : Engine) (db : Db) (i : Nat) : Option String × Db :=
  gormDelete eng db i

/-- Method `Dao.GetModel`: `Find` by id; on an error or zero rows return the nil
model together with the error of the query itself (nil on plain zero matches). -/
def GetModel (eng : Engine) (db : Db) (i : Nat) : Option DbModel × Option String :=
  match eng.queryErr db.rows with
  | some e => (none, some e)
  | none =>
    match (db.rows.filter fun r => r.id = i).head? with
    | none => (none, none)
    | some r => (some r, none)

/-- Method `Dao.GetList`: `Limit(maxCount).Offset(startId).Find(&list)`; a negative
limit cancels the clause, and the slice is returned together with the query
error in every branch. -/
def GetList (eng : Engine) (db : Db) (startId : Nat) (maxCount : Int) :
    Option (List DbModel) × Option String :=
  let sel := if 0 ≤ maxCount then (db.rows.drop startId).take maxCount.toNat
             else db.rows.drop startId
  findEpilogue (gormFindList eng db.rows sel)

/-- Method `Dao.GetAll`: `Find(&list)` over the whole table. -/
def GetAll (eng : Engine) (db : Db) : Option (List DbModel) × Option String :=
  findEpilogue (gormFindList eng db.rows db.rows)

/-- Method `Dao.GetConditions`: `Where(query).Find(&list)` with the predicate supplied by the caller. -/
def GetConditions (eng : Engine) (db : Db) (query : DbModel → Bool) :
    Option (List DbModel) × Option String :=
  findEpilogue (gormFindList eng db.rows (db.rows.filter query))

/-- Method `Dao.GetConditionsLimit`: apply `Limit(maxCount)` only when
`maxCount > 0`; otherwise query unbounded. -/
def GetConditionsLimit (eng : Engine) (db : Db) (maxCount : Int)
    (query : DbModel → Bool) : Option (List DbModel) × Option String :=
  if 0 < maxCount then
    findEpilogue (gormFindList eng db.rows ((db.rows.filter query).take maxCount.toNat))
  else
    findEpilogue (gormFindList eng db.rows (db.rows.filter query))

end Dao

/-- The schema operations a repository construction can issue. -/
inductive SchemaAction where
  | probe
  | createTable
deriving DecidableEq, Repr

/-- The migrator environment: whether `HasTable` reports the table present,
and whether `AutoMigrate` would succeed. -/
structure MigEnv where
  hasTable : Bool
  migrateOk : Bool
deriving DecidableEq, Repr

/-- The constructed repository: just the connection handle. -/
structure DaoT where
  db : Db
deriving DecidableEq, Repr

/-- Constructor `NewDao`: probe `HasTable`; when absent run `AutoMigrate`, returning nil
if it fails; otherwise wrap the connection. Also records the schema
operations issued. -/
def NewDao (env : MigEnv) (db : Db) : List SchemaAction × Option DaoT :=
  if env.hasTable = false then
    if env.migrateOk then ([.probe, .createTable], some ⟨db⟩)
    else ([.probe, .createTable], none)
  else ([.probe], some ⟨db⟩)

/-- Go `strings.Split` on a single-character separator, over strings
modelled as their character lists (so the function is structurally
recursive and executable). Like Go, splitting the empty string yields
one empty segment. -/
def goSplit (sep : Char) : List Char → List (List Char)
  | [] => [[]]
  | c :: rest =>
    match goSplit sep rest with
    | [] => if c = sep then [[], []] else [[c]]
    | t :: ts => if c = sep then [] :: t :: ts else (c :: t) :: ts

/-- The outcome of the `NewDb` connection-spec dispatch: either a fatal abort
(a panic, including the index-out-of-range ones on the split segments) or an
opened connection described by its kind, driver parameter and the sqlite
journal pragma issued (if any). -/
inductive NewDbResult where
  | fatal (msg : String)
  | conn (kind : String) (dsn : List Char) (journal : Option (List Char))
deriving DecidableEq, Repr

/-- Backend dispatch of `NewDb` on the connection string (database.go lines
109-156): split on `'|'`, switch on the leading token, split the sqlite
parameter on `'&'`; unknown kinds panic "unknown db type" and missing
segments panic with an index-out-of-range. Opening the connection itself is
taken to succeed (its failures are environmental, not spec-dependent). -/
def NewDb (connect : List Char) : NewDbResult :=
  let sp := goSplit '|' connect
  let kind := sp.headD []
  if kind = "sqlite".toList then
    match sp[1]? with
    | none => .fatal "index out of range"
    | some p1 =>
      let spp := goSplit '&' p1
      let file := spp.headD []
      match spp[1]? with
      | none => .fatal "index out of range"
      | some j => .conn "sqlite" file (if j = [] then none else some j)
  else if kind = "sqlserver".toList then
    match sp[1]? with
    | none => .fatal "index out of range"
    | some p1 => .conn "sqlserver" ("sqlserver://".toList ++ p1) none
  else if kind = "mysql".toList then
    match sp[1]? with
    | none => .fatal "index out of range"
    | some p1 => .conn "mysql" p1 none
  else if kind = "postgres".toList then
    match sp[1]? with
    | none => .fatal "index out of range"
    | some p1 => .conn "postgres" p1 none
  else .fatal "unknown db type"

/-- The persisted-timestamp invariant: no stored row has `LastTime` at the
zero sentinel. -/
def NoSentinel (db : Db) : Prop :=
  ∀ r ∈ db.rows, r.lastTime ≠ zeroTimeStr



theorem gormCreate_some_eq (eng : Engine) (db : Db) (m : DbModel) (e : String)
    (hc : eng.createErr db.rows m = some e) : gormCreate eng db m = (some e, db) := by
  unfold gormCreate; rw [hc]

theorem gormCreate_none_eq (eng : Engine) (db : Db) (m : DbModel)
    (hc : eng.createErr db.rows m = none) :
    gormCreate eng db m = (none, ⟨db.rows ++ [m]⟩) := by
  unfold gormCreate; rw [hc]

theorem gormCreate_ok_rows {eng : Engine} {db db2 : Db} {m : DbModel}
    (h : gormCreate eng db m = (none, db2)) : db2.rows = db.rows ++ [m] := by
  cases hc : eng.createErr db.rows m with
  | some e =>
    rw [gormCreate_some_eq eng db m e hc] at h
    injection h with h1 _
    exact Option.noConfusion h1
  | none =>
    rw [gormCreate_none_eq eng db m hc] at h
    injection h with _ h2
    rw [← h2]

theorem gormUpdates_some_eq (eng : Engine) (db : Db) (m : DbModel) (e : String)
    (hc : eng.updateErr db.rows m = some e) :
    gormUpdates eng db m = (some e, 0, db) := by
  unfold gormUpdates; rw [hc]

theorem gormUpdates_none_eq (eng : Engine) (db : Db) (m : DbModel)
    (hc : eng.updateErr db.rows m = none) :
    gormUpdates eng db m = (none, (db.rows.filter (fun r => r.id = m.id)).length,
      ⟨db.rows.map fun r => if r.id = m.id then m else r⟩) := by
  unfold gormUpdates; rw [hc]

theorem gormSave_some_eq (eng : Engine) (db : Db) (m : DbModel) (e : String)
    (hc : eng.saveErr db.rows m = some e) : gormSave eng db m = (some e, db) := by
  unfold gormSave; rw [hc]

theorem gormSave_none_update_eq (eng : Engine) (db : Db) (m : DbModel)
    (hc : eng.saveErr db.rows m = none)
    (hany : db.rows.any (fun r => r.id = m.id) = true) :
    gormSave eng db m = (none, ⟨db.rows.map fun r => if r.id = m.id then m else r⟩) := by
  unfold gormSave
  rw [hc, if_pos hany]

theorem gormSave_none_insert_eq (eng : Engine) (db : Db) (m : DbModel)
    (hc : eng.saveErr db.rows m = none)
    (hany : db.rows.any (fun r => r.id = m.id) = false) :
    gormSave eng db m = (none, ⟨db.rows ++ [m]⟩) := by
  unfold gormSave
  rw [hc, if_neg (by rw [hany]; exact Bool.false_ne_true)]

theorem gormSave_ok_mem {eng : Engine} {db db2 : Db} {m : DbModel}
    (h : gormSave eng db m = (none, db2)) : m ∈ db2.rows := by
  cases hc : eng.saveErr db.rows m with
  | some e =>
    rw [gormSave_some_eq eng db m e hc] at h
    injection h with h1 _
    exact Option.noConfusion h1
  | none =>
    cases hany : db.rows.any (fun r => r.id = m.id) with
    | true =>
      rw [gormSave_none_update_eq eng db m hc hany] at h
      injection h with _ h2
      rcases List.any_eq_true.mp hany with ⟨r, hr, hrid⟩
      have hrid2 : r.id = m.id := by simpa using hrid
      rw [← h2]
      exact List.mem_map.mpr ⟨r, hr, by rw [if_pos hrid2]⟩
    | false =>
      rw [gormSave_none_insert_eq eng db m hc hany] at h
      injection h with _ h2
      rw [← h2]
      exact List.mem_append_right _ (List.mem_singleton.mpr rfl)

theorem gormSave_ok_preserve {eng : Engine} {db db2 : Db} {m m0 : DbModel}
    (h : gormSave eng db m = (none, db2)) (hm0 : m0 ∈ db.rows)
    (hne : ¬ m.id = m0.id) : m0 ∈ db2.rows := by
  cases hc : eng.saveErr db.rows m with
  | some e =>
    rw [gormSave_some_eq eng db m e hc] at h
    injection h with h1 _
    exact Option.noConfusion h1
  | none =>
    cases hany : db.rows.any (fun r => r.id = m.id) with
    | true =>
      rw [gormSave_none_update_eq eng db m hc hany] at h
      injection h with _ h2
      rw [← h2]
      refine List.mem_map.mpr ⟨m0, hm0, ?_⟩
      rw [if_neg (fun hid => hne hid.symm)]
    | false =>
      rw [gormSave_none_insert_eq eng db m hc hany] at h
      injection h with _ h2
      rw [← h2]
      exact List.mem_append_left _ hm0

theorem createListTx_ok_rows (eng : Engine) (now : String) :
    ∀ (list : List DbModel) (db db2 : Db),
      Dao.createListTx eng now list db = .ok db2 →
      db2.rows = db.rows ++ list := by
  intro list
  induction list with
  | nil =>
    intro db db2 h
    simp only [Dao.createListTx] at h
    cases h
    simp
  | cons m rest ih =>
    intro db db2 h
    simp only [Dao.createListTx] at h
    rcases hg : gormCreate eng db m with ⟨err, db1⟩
    rw [hg] at h
    cases err with
    | some e => exact Except.noConfusion h
    | none =>
      have h2 : Dao.createListTx eng now rest db1 = .ok db2 := h
      rw [ih db1 db2 h2, gormCreate_ok_rows hg, List.append_assoc]
      rfl

theorem saveListTx_preserve (eng : Engine) (now : String) :
    ∀ (list : List DbModel) (db db2 : Db) (m0 : DbModel),
      Dao.saveListTx eng now list db = .ok db2 → m0 ∈ db.rows →
      (∀ m ∈ list, ¬ m.id = m0.id) → m0 ∈ db2.rows := by
  intro list
  induction list with
  | nil =>
    intro db db2 m0 h hm0 _
    simp only [Dao.saveListTx] at h
    cases h
    exact hm0
  | cons m rest ih =>
    intro db db2 m0 h hm0 hne
    simp only [Dao.saveListTx] at h
    rcases hg : gormSave eng db m with ⟨err, db1⟩
    rw [hg] at h
    cases err with
    | some e => exact Except.noConfusion h
    | none =>
      have h2 : Dao.saveListTx eng now rest db1 = .ok db2 := h
      have hm0b : m0 ∈ db1.rows :=
        gormSave_ok_preserve hg hm0 (hne m (List.mem_cons_self m rest))
      exact ih db1 db2 m0 h2 hm0b fun b hb => hne b (List.mem_cons_of_mem m hb)

theorem saveListTx_mem (eng : Engine) (now : String) :
    ∀ (list : List DbModel) (db db2 : Db),
      Dao.saveListTx eng now list db = .ok db2 →
      List.Pairwise (fun a b => ¬ a.id = b.id) list →
      ∀ m ∈ list, m ∈ db2.rows := by
  intro list
  induction list with
  | nil => intro db db2 _ _ m hm; exact absurd hm (List.not_mem_nil m)
  | cons a rest ih =>
    intro db db2 h hpw m hm
    simp only [Dao.saveListTx] at h
    rcases hg : gormSave eng db a with ⟨err, db1⟩
    rw [hg] at h
    cases err with
    | some e => exact Except.noConfusion h
    | none =>
      have h2 : Dao.saveListTx eng now rest db1 = .ok db2 := h
      rcases List.mem_cons.mp hm with rfl | hm2
      · refine saveListTx_preserve eng now rest db1 db2 _ h2 (gormSave_ok_mem hg) ?_
        intro b hb hcontra
        exact (List.pairwise_cons.mp hpw).1 b hb hcontra.symm
      · exact ih db1 db2 h2 (List.pairwise_cons.mp hpw).2 m hm2

theorem findEpilogue_eq (x : Option String × Nat × Option (List DbModel)) :
    findEpilogue x = (x.2.2, x.1) := by
  rcases x with ⟨err, n, list⟩
  cases err <;> cases n <;> rfl

theorem gormFindList_some_eq (eng : Engine) (rows sel : List DbModel) (e : String)
    (h : eng.queryErr rows = some e) :
    gormFindList eng rows sel = (some e, 0, some []) := by
  unfold gormFindList; rw [h]

theorem gormFindList_none_eq (eng : Engine) (rows sel : List DbModel)
    (h : eng.queryErr rows = none) :
    gormFindList eng rows sel = (none, sel.length, some sel) := by
  unfold gormFindList; rw [h]

/-- C1: the claim fails on the program. In the three list write paths the
loop variable is a by-value copy boxed into the reflective accessor, so the
LastTime stamp mutates a discarded copy and the unstamped original is
submitted: CreateList, SaveList and UpdateList persist a row whose LastTime
is still at the zero sentinel, violating the claimed invariant — while the
single-item Create, which passes the model by pointer, does stamp
effectively before submitting. -/
theorem listWrites_persist_sentinel_row :
    (Dao.CreateList pureEngine "2024-05-01 08:00:00" ⟨[]⟩
        [⟨2, zeroTimeStr, "y"⟩]).2.rows = [⟨2, zeroTimeStr, "y"⟩] ∧
    ¬ NoSentinel (Dao.CreateList pureEngine "2024-05-01 08:00:00" ⟨[]⟩
        [⟨2, zeroTimeStr, "y"⟩]).2 ∧
    (Dao.SaveList pureEngine "2024-05-01 08:00:00" ⟨[]⟩
        [⟨2, zeroTimeStr, "y"⟩]).2.rows = [⟨2, zeroTimeStr, "y"⟩] ∧
    (Dao.UpdateList pureEngine "2024-05-01 08:00:00" ⟨[⟨2, zeroTimeStr, "x"⟩]⟩
        [⟨2, zeroTimeStr, "y"⟩]).2.rows = [⟨2, zeroTimeStr, "y"⟩] ∧
    (Dao.Create pureEngine "2024-05-01 08:00:00" ⟨[]⟩ ⟨2, zeroTimeStr, "y"⟩).2.rows =
      [⟨2, "2024-05-01 08:00:00", "y"⟩] := by
  refine ⟨by decide, ?_, by decide, by decide, by decide⟩
  intro h
  exact (h ⟨2, zeroTimeStr, "y"⟩ (by decide)) rfl

/-- C2: CreateList and SaveList run the whole batch inside one transaction:
a failing element surfaces the error of that element and leaves the stored state
unchanged (zero rows of the batch persisted), while a fully successful batch
persists every element (unstamped, per the by-value copy in the loops). -/
theorem batch_all_or_nothing (eng : Engine) (now : String) (db : Db)
    (list : List DbModel) (e : String) :
    (Dao.createListTx eng now list db = .error e →
      Dao.CreateList eng now db list = (some e, db)) ∧
    ((Dao.CreateList eng now db list).1 = some e →
      (Dao.CreateList eng now db list).2 = db) ∧
    ((Dao.CreateList eng now db list).1 = none →
      (Dao.CreateList eng now db list).2.rows = db.rows ++ list) ∧
    (Dao.saveListTx eng now list db = .error e →
      Dao.SaveList eng now db list = (some e, db)) ∧
    ((Dao.SaveList eng now db list).1 = some e →
      (Dao.SaveList eng now db list).2 = db) ∧
    ((Dao.SaveList eng now db list).1 = none →
      List.Pairwise (fun a b => ¬ a.id = b.id) list →
      ∀ m ∈ list, m ∈ (Dao.SaveList eng now db list).2.rows) := by
  refine ⟨?_, ?_, ?_, ?_, ?_, ?_⟩
  · intro h
    unfold Dao.CreateList transaction
    rw [h]
  · unfold Dao.CreateList transaction
    cases ht : Dao.createListTx eng now list db with
    | error e2 => intro _; rfl
    | ok db2 => intro hcon; exact Option.noConfusion hcon
  · unfold Dao.CreateList transaction
    cases ht : Dao.createListTx eng now list db with
    | error e2 => intro hcon; exact Option.noConfusion hcon
    | ok db2 => intro _; exact createListTx_ok_rows eng now list db db2 ht
  · intro h
    unfold Dao.SaveList transaction
    rw [h]
  · unfold Dao.SaveList transaction
    cases ht : Dao.saveListTx eng now list db with
    | error e2 => intro _; rfl
    | ok db2 => intro hcon; exact Option.noConfusion hcon
  · unfold Dao.SaveList transaction
    cases ht : Dao.saveListTx eng now list db with
    | error e2 => intro hcon; exact Option.noConfusion hcon
    | ok db2 => intro _ hpw m hm; exact saveListTx_mem eng now list db db2 ht hpw m hm

/-- Witness for C2: a duplicate-key engine rejects the second element and the
batch leaves the one-row table unchanged; the pure engine persists both. -/
theorem batch_all_or_nothing_witness :
    Dao.createListTx (uniqueIdEngine "UNIQUE constraint failed")
      "t" [⟨5, "s", "a"⟩, ⟨5, "s", "b"⟩] ⟨[]⟩ = .error "UNIQUE constraint failed" ∧
    Dao.CreateList (uniqueIdEngine "UNIQUE constraint failed")
      "t" ⟨[]⟩ [⟨5, "s", "a"⟩, ⟨5, "s", "b"⟩] =
      (some "UNIQUE constraint failed", ⟨[]⟩) :=
  ⟨by rfl,
    (batch_all_or_nothing (uniqueIdEngine "UNIQUE constraint failed") "t" ⟨[]⟩
      [⟨5, "s", "a"⟩, ⟨5, "s", "b"⟩] "UNIQUE constraint failed").1 (by rfl)⟩

theorem gormDelete_some_eq (eng : Engine) (db : Db) (i : Nat) (e : String)
    (hc : eng.deleteErr db.rows i = some e) : gormDelete eng db i = (some e, db) := by
  unfold gormDelete; rw [hc]

theorem gormDelete_none_eq (eng : Engine) (db : Db) (i : Nat)
    (hc : eng.deleteErr db.rows i = none) :
    gormDelete eng db i = (none, ⟨db.rows.filter fun r => ¬ r.id = i⟩) := by
  unfold gormDelete; rw [hc]

/-- C3: Update returns nil when at least one row was matched and updated,
returns the execution error when the engine reports one, and returns the
distinct "update record does not exist" error (never nil, never a generic
write error) when zero rows matched without an execution error. -/
theorem update_not_found_is_distinct_error (eng : Engine) (now : String)
    (db : Db) (model : DbModel) (e : String) :
    (eng.updateErr db.rows (stampLastTime now model) = none →
      0 < (db.rows.filter fun r => r.id = (stampLastTime now model).id).length →
      (Dao.Update eng now db model).1 = none) ∧
    (eng.updateErr db.rows (stampLastTime now model) = some e →
      (Dao.Update eng now db model).1 = some e) ∧
    (eng.updateErr db.rows (stampLastTime now model) = none →
      (db.rows.filter fun r => r.id = (stampLastTime now model).id).length = 0 →
      (Dao.Update eng now db model).1 = some "update record does not exist") := by
  refine ⟨?_, ?_, ?_⟩
  · intro hc hlen
    unfold Dao.Update
    simp only [gormUpdates_none_eq eng db _ hc]
    rw [if_pos hlen]
  · intro hc
    unfold Dao.Update
    simp only [gormUpdates_some_eq eng db _ e hc]
    rfl
  · intro hc hlen
    unfold Dao.Update
    simp only [gormUpdates_none_eq eng db _ hc]
    rw [if_neg (by rw [hlen]; exact lt_irrefl 0)]

/-- Witness for C3: updating the single matching row returns nil; updating a
missing id returns the "update record does not exist" error. -/
theorem update_not_found_is_distinct_error_witness :
    (Dao.Update pureEngine "t" ⟨[⟨3, "s", "a"⟩]⟩ ⟨3, "u", "b"⟩).1 = none ∧
    (Dao.Update pureEngine "t" ⟨[⟨3, "s", "a"⟩]⟩ ⟨4, "u", "b"⟩).1 =
      some "update record does not exist" :=
  ⟨(update_not_found_is_distinct_error pureEngine "t" ⟨[⟨3, "s", "a"⟩]⟩
      ⟨3, "u", "b"⟩ "x").1 rfl (by decide),
    (update_not_found_is_distinct_error pureEngine "t" ⟨[⟨3, "s", "a"⟩]⟩
      ⟨4, "u", "b"⟩ "x").2.2 rfl (by decide)⟩

/-- C4: GetModel returns the matching row with no error when exactly one row
matches the id, and returns an absent model with no error when zero rows
match and the query did not fail. -/
theorem getModel_zero_match_no_error (eng : Engine) (db : Db) (i : Nat)
    (r : DbModel) :
    (eng.queryErr db.rows = none → (db.rows.filter fun x => x.id = i) = [r] →
      Dao.GetModel eng db i = (some r, none)) ∧
    (eng.queryErr db.rows = none → (db.rows.filter fun x => x.id = i) = [] →
      Dao.GetModel eng db i = (none, none)) := by
  constructor
  · intro hq hf
    unfold Dao.GetModel
    rw [hq, hf]
    exact rfl
  · intro hq hf
    unfold Dao.GetModel
    rw [hq, hf]
    exact rfl

/-- Witness for C4: the present id is returned without error and the absent
id yields a nil model without error. -/
theorem getModel_zero_match_no_error_witness :
    Dao.GetModel pureEngine ⟨[⟨3, "s", "a"⟩]⟩ 3 = (some ⟨3, "s", "a"⟩, none) ∧
    Dao.GetModel pureEngine ⟨[⟨3, "s", "a"⟩]⟩ 9 = (none, none) :=
  ⟨(getModel_zero_match_no_error pureEngine ⟨[⟨3, "s", "a"⟩]⟩ 3 ⟨3, "s", "a"⟩).1
      rfl (by decide),
    (getModel_zero_match_no_error pureEngine ⟨[⟨3, "s", "a"⟩]⟩ 9 ⟨3, "s", "a"⟩).2
      rfl (by decide)⟩

/-- C7: Delete errors exactly when the underlying delete execution fails;
with no execution error it succeeds even on zero matches, and repeating it
with the same id leaves the state unchanged and again returns no error. -/
theorem delete_absent_no_error_idempotent (eng : Engine) (db : Db) (i : Nat)
    (e : String) :
    ((Dao.Delete eng db i).1 = some e ↔ eng.deleteErr db.rows i = some e) ∧
    (eng.deleteErr db.rows i = none →
      (Dao.Delete eng db i).1 = none ∧
      (Dao.Delete eng db i).2.rows = db.rows.filter (fun r => ¬ r.id = i) ∧
      (eng.deleteErr (Dao.Delete eng db i).2.rows i = none →
        Dao.Delete eng (Dao.Delete eng db i).2 i =
          ((none : Option String), (Dao.Delete eng db i).2))) := by
  constructor
  · cases hc : eng.deleteErr db.rows i with
    | some e2 =>
      have hD : Dao.Delete eng db i = (some e2, db) := gormDelete_some_eq eng db i e2 hc
      rw [hD]
    | none =>
      have hD : Dao.Delete eng db i =
          ((none : Option String), ⟨db.rows.filter fun r => ¬ r.id = i⟩) :=
        gormDelete_none_eq eng db i hc
      rw [hD]
  · intro hc
    have hD : Dao.Delete eng db i =
        ((none : Option String), ⟨db.rows.filter fun r => ¬ r.id = i⟩) :=
      gormDelete_none_eq eng db i hc
    rw [hD]
    refine ⟨rfl, rfl, ?_⟩
    intro h2
    have hD2 : Dao.Delete eng ⟨db.rows.filter fun r => ¬ r.id = i⟩ i =
        ((none : Option String),
          ⟨(db.rows.filter fun r => ¬ r.id = i).filter fun r => ¬ r.id = i⟩) :=
      gormDelete_none_eq eng _ i h2
    rw [hD2]
    have hidem : ((db.rows.filter fun r => ¬ r.id = i).filter fun r => ¬ r.id = i)
        = db.rows.filter fun r => ¬ r.id = i := by
      rw [List.filter_filter]
      simp
    rw [hidem]

/-- Witness for C7: deleting id 3 from a one-row table empties it with no
error, and deleting it again is a no-op with no error. -/
theorem delete_absent_no_error_idempotent_witness :
    (Dao.Delete pureEngine ⟨[⟨3, "s", "a"⟩]⟩ 3).1 = none ∧
    Dao.Delete pureEngine (Dao.Delete pureEngine ⟨[⟨3, "s", "a"⟩]⟩ 3).2 3 =
      ((none : Option String), (Dao.Delete pureEngine ⟨[⟨3, "s", "a"⟩]⟩ 3).2) :=
  ⟨((delete_absent_no_error_idempotent pureEngine ⟨[⟨3, "s", "a"⟩]⟩ 3 "x").2 rfl).1,
    ((delete_absent_no_error_idempotent pureEngine ⟨[⟨3, "s", "a"⟩]⟩ 3 "x").2 rfl).2.2 rfl⟩

/-- C8: GetConditionsLimit returns at most maxCount matching rows when
maxCount > 0, and with maxCount ≤ 0 applies no limit and returns every row
matching the predicate. -/
theorem getConditionsLimit_respects_limit (eng : Engine) (db : Db)
    (maxCount : Int) (q : DbModel → Bool) :
    (0 < maxCount →
      ((Dao.GetConditionsLimit eng db maxCount q).1.getD []).length ≤ maxCount.toNat ∧
      ∀ r ∈ (Dao.GetConditionsLimit eng db maxCount q).1.getD [], q r = true) ∧
    (maxCount ≤ 0 → eng.queryErr db.rows = none →
      (Dao.GetConditionsLimit eng db maxCount q).1 = some (db.rows.filter q)) := by
  constructor
  · intro hpos
    unfold Dao.GetConditionsLimit
    rw [if_pos hpos]
    cases hq : eng.queryErr db.rows with
    | some e =>
      rw [gormFindList_some_eq eng db.rows _ e hq, findEpilogue_eq]
      constructor
      · simp
      · intro r hr
        simp at hr
    | none =>
      rw [gormFindList_none_eq eng db.rows _ hq, findEpilogue_eq]
      constructor
      · simp only [Option.getD_some, List.length_take]
        exact min_le_left _ _
      · intro r hr
        simp only [Option.getD_some] at hr
        exact (List.mem_filter.mp (List.mem_of_mem_take hr)).2
  · intro hneg hq
    unfold Dao.GetConditionsLimit
    rw [if_neg (not_lt.mpr hneg), gormFindList_none_eq eng db.rows _ hq, findEpilogue_eq]

/-- Witness for C8: with limit 1 over a two-row table only one matching row
is returned; with limit 0 both matching rows are returned. -/
theorem getConditionsLimit_respects_limit_witness :
    ((Dao.GetConditionsLimit pureEngine ⟨[⟨1, "s", "a"⟩, ⟨2, "s", "b"⟩]⟩ 1
      (fun r => r.lastTime = "s")).1.getD []).length ≤ (1 : Int).toNat ∧
    (Dao.GetConditionsLimit pureEngine ⟨[⟨1, "s", "a"⟩, ⟨2, "s", "b"⟩]⟩ 0
      (fun r => r.lastTime = "s")).1 =
      some ([⟨1, "s", "a"⟩, ⟨2, "s", "b"⟩].filter fun r => r.lastTime = "s") :=
  ⟨((getConditionsLimit_respects_limit pureEngine ⟨[⟨1, "s", "a"⟩, ⟨2, "s", "b"⟩]⟩ 1
      (fun r => r.lastTime = "s")).1 (by decide)).1,
    (getConditionsLimit_respects_limit pureEngine ⟨[⟨1, "s", "a"⟩, ⟨2, "s", "b"⟩]⟩ 0
      (fun r => r.lastTime = "s")).2 (by decide) rfl⟩

theorem updateListTx_ok_of_no_err (eng : Engine) (now : String)
    (h : ∀ rows m, eng.updateErr rows m = none) :
    ∀ (list : List DbModel) (db : Db), ∃ db2,
      Dao.updateListTx eng now list db = .ok db2 := by
  intro list
  induction list with
  | nil => intro db; exact ⟨db, rfl⟩
  | cons m rest ih =>
    intro db
    rcases ih ⟨db.rows.map fun r => if r.id = m.id then m else r⟩ with ⟨db2, hdb2⟩
    refine ⟨db2, ?_⟩
    simp only [Dao.updateListTx]
    rw [gormUpdates_none_eq eng db m (h db.rows m)]
    exact hdb2

/-- C9: UpdateList returns nil whenever every per-model update executes
without an execution error, even when models match zero rows — unlike the
single-item Update, which reports "update record does not exist" on a
zero-rows match. -/
theorem updateList_zero_matches_not_error (eng : Engine) (now : String)
    (db : Db) (list : List DbModel) (model : DbModel)
    (h : ∀ rows m, eng.updateErr rows m = none) :
    (Dao.UpdateList eng now db list).1 = none ∧
    ((db.rows.filter fun r => r.id = (stampLastTime now model).id).length = 0 →
      (Dao.Update eng now db model).1 = some "update record does not exist") := by
  constructor
  · rcases updateListTx_ok_of_no_err eng now h list db with ⟨db2, h2⟩
    unfold Dao.UpdateList transaction
    rw [h2]
  · intro hlen
    unfold Dao.Update
    simp only [gormUpdates_none_eq eng db _ (h db.rows _)]
    rw [if_neg (by rw [hlen]; exact lt_irrefl 0)]

/-- Witness for C9: a batch update of a model matching no rows returns nil,
while the single-item update of the same model returns the not-found error. -/
theorem updateList_zero_matches_not_error_witness :
    (Dao.UpdateList pureEngine "t" ⟨[]⟩ [⟨5, "s", "a"⟩]).1 = none ∧
    (Dao.Update pureEngine "t" ⟨[]⟩ ⟨5, "s", "a"⟩).1 =
      some "update record does not exist" :=
  ⟨(updateList_zero_matches_not_error pureEngine "t" ⟨[]⟩ [⟨5, "s", "a"⟩]
      ⟨5, "s", "a"⟩ fun _ _ => rfl).1,
    (updateList_zero_matches_not_error pureEngine "t" ⟨[]⟩ [⟨5, "s", "a"⟩]
      ⟨5, "s", "a"⟩ fun _ _ => rfl).2 rfl⟩

/-- C10: GetList, GetAll and GetConditions always return a non-nil slice;
on a query error they return the empty slice with that error, and on plain
zero matches the empty slice with no error. -/
theorem list_queries_non_nil_slice (eng : Engine) (db : Db) (startId : Nat)
    (maxCount : Int) (q : DbModel → Bool) (e : String) :
    (Dao.GetList eng db startId maxCount).1 ≠ none ∧
    (Dao.GetAll eng db).1 ≠ none ∧
    (Dao.GetConditions eng db q).1 ≠ none ∧
    (eng.queryErr db.rows = some e →
      Dao.GetList eng db startId maxCount = (some [], some e) ∧
      Dao.GetAll eng db = (some [], some e) ∧
      Dao.GetConditions eng db q = (some [], some e)) ∧
    (eng.queryErr db.rows = none →
      ((if 0 ≤ maxCount then (db.rows.drop startId).take maxCount.toNat
          else db.rows.drop startId) = [] →
        Dao.GetList eng db startId maxCount = (some [], none)) ∧
      (db.rows = [] → Dao.GetAll eng db = (some [], none)) ∧
      (db.rows.filter q = [] → Dao.GetConditions eng db q = (some [], none))) := by
  refine ⟨?_, ?_, ?_, ?_, ?_⟩
  · simp only [Dao.GetList]
    cases hq : eng.queryErr db.rows with
    | some e2 => rw [gormFindList_some_eq eng db.rows _ e2 hq, findEpilogue_eq]; simp
    | none => rw [gormFindList_none_eq eng db.rows _ hq, findEpilogue_eq]; simp
  · unfold Dao.GetAll
    cases hq : eng.queryErr db.rows with
    | some e2 => rw [gormFindList_some_eq eng db.rows _ e2 hq, findEpilogue_eq]; simp
    | none => rw [gormFindList_none_eq eng db.rows _ hq, findEpilogue_eq]; simp
  · unfold Dao.GetConditions
    cases hq : eng.queryErr db.rows with
    | some e2 => rw [gormFindList_some_eq eng db.rows _ e2 hq, findEpilogue_eq]; simp
    | none => rw [gormFindList_none_eq eng db.rows _ hq, findEpilogue_eq]; simp
  · intro hq
    refine ⟨?_, ?_, ?_⟩
    · simp only [Dao.GetList]
      rw [gormFindList_some_eq eng db.rows _ e hq, findEpilogue_eq]
    · unfold Dao.GetAll
      rw [gormFindList_some_eq eng db.rows _ e hq, findEpilogue_eq]
    · unfold Dao.GetConditions
      rw [gormFindList_some_eq eng db.rows _ e hq, findEpilogue_eq]
  · intro hq
    refine ⟨?_, ?_, ?_⟩
    · intro hsel
      simp only [Dao.GetList]
      rw [gormFindList_none_eq eng db.rows _ hq, findEpilogue_eq, hsel]
    · intro hrows
      unfold Dao.GetAll
      rw [gormFindList_none_eq eng db.rows _ hq, findEpilogue_eq, hrows]
    · intro hfil
      unfold Dao.GetConditions
      rw [gormFindList_none_eq eng db.rows _ hq, findEpilogue_eq, hfil]

/-- Witness for C10: on an empty table all three queries return the empty
(non-nil) slice with no error. -/
theorem list_queries_non_nil_slice_witness :
    Dao.GetAll pureEngine ⟨[]⟩ = (some [], none) ∧
    Dao.GetList pureEngine ⟨[]⟩ 0 10 = (some [], none) ∧
    Dao.GetConditions pureEngine ⟨[]⟩ (fun r => r.id = 1) = (some [], none) :=
  ⟨((list_queries_non_nil_slice pureEngine ⟨[]⟩ 0 10 (fun r => r.id = 1) "x").2.2.2.2
      rfl).2.1 rfl,
    ((list_queries_non_nil_slice pureEngine ⟨[]⟩ 0 10 (fun r => r.id = 1) "x").2.2.2.2
      rfl).1 (by decide),
    ((list_queries_non_nil_slice pureEngine ⟨[]⟩ 0 10 (fun r => r.id = 1) "x").2.2.2.2
      rfl).2.2 rfl⟩

/-- C5: NewDao issues the create-table operation exactly when the existence
probe reports the table absent; with the table present only the probe runs
and the schema is untouched; and construction yields no repository exactly
when table creation fails, otherwise a repository over the given connection. -/
theorem newDao_creates_only_when_absent (env : MigEnv) (db : Db) :
    (SchemaAction.createTable ∈ (NewDao env db).1 ↔ env.hasTable = false) ∧
    ((NewDao env db).1 = if env.hasTable then [SchemaAction.probe]
      else [SchemaAction.probe, SchemaAction.createTable]) ∧
    ((NewDao env db).2 = none ↔ env.hasTable = false ∧ env.migrateOk = false) ∧
    ((NewDao env db).2 = some ⟨db⟩ ↔
      ¬(env.hasTable = false ∧ env.migrateOk = false)) := by
  obtain ⟨ht, mo⟩ := env
  cases ht <;> cases mo <;> simp [NewDao]

/-- Witness for C5 with the table present: only the probe runs and the
repository is returned. -/
theorem newDao_creates_only_when_absent_witness :
    (NewDao ⟨true, true⟩ ⟨[]⟩).1 =
      (if (⟨true, true⟩ : MigEnv).hasTable then [SchemaAction.probe]
        else [SchemaAction.probe, SchemaAction.createTable]) ∧
    ((NewDao ⟨true, true⟩ ⟨[]⟩).2 = some ⟨⟨[]⟩⟩ ↔
      ¬((⟨true, true⟩ : MigEnv).hasTable = false ∧
        (⟨true, true⟩ : MigEnv).migrateOk = false)) :=
  ⟨(newDao_creates_only_when_absent ⟨true, true⟩ ⟨[]⟩).2.1,
    (newDao_creates_only_when_absent ⟨true, true⟩ ⟨[]⟩).2.2.2⟩

theorem newDb_unknown_eq (connect : List Char)
    (h1 : ¬ (goSplit '|' connect).headD [] = "sqlite".toList)
    (h2 : ¬ (goSplit '|' connect).headD [] = "sqlserver".toList)
    (h3 : ¬ (goSplit '|' connect).headD [] = "mysql".toList)
    (h4 : ¬ (goSplit '|' connect).headD [] = "postgres".toList) :
    NewDb connect = .fatal "unknown db type" := by
  unfold NewDb
  rw [if_neg h1, if_neg h2, if_neg h3, if_neg h4]

theorem newDb_sqlite_eq (connect : List Char)
    (h1 : (goSplit '|' connect).headD [] = "sqlite".toList) :
    NewDb connect =
      (match (goSplit '|' connect)[1]? with
       | none => NewDbResult.fatal "index out of range"
       | some p1 =>
         match (goSplit '&' p1)[1]? with
         | none => NewDbResult.fatal "index out of range"
         | some j => NewDbResult.conn "sqlite" ((goSplit '&' p1).headD [])
             (if j = [] then none else some j)) := by
  unfold NewDb
  rw [if_pos h1]

theorem newDb_sqlserver_eq (connect : List Char)
    (h1 : ¬ (goSplit '|' connect).headD [] = "sqlite".toList)
    (h2 : (goSplit '|' connect).headD [] = "sqlserver".toList) :
    NewDb connect =
      (match (goSplit '|' connect)[1]? with
       | none => NewDbResult.fatal "index out of range"
       | some p1 => NewDbResult.conn "sqlserver" ("sqlserver://".toList ++ p1) none) := by
  unfold NewDb
  rw [if_neg h1, if_pos h2]

theorem newDb_mysql_eq (connect : List Char)
    (h1 : ¬ (goSplit '|' connect).headD [] = "sqlite".toList)
    (h2 : ¬ (goSplit '|' connect).headD [] = "sqlserver".toList)
    (h3 : (goSplit '|' connect).headD [] = "mysql".toList) :
    NewDb connect =
      (match (goSplit '|' connect)[1]? with
       | none => NewDbResult.fatal "index out of range"
       | some p1 => NewDbResult.conn "mysql" p1 none) := by
  unfold NewDb
  rw [if_neg h1, if_neg h2, if_pos h3]

theorem newDb_postgres_eq (connect : List Char)
    (h1 : ¬ (goSplit '|' connect).headD [] = "sqlite".toList)
    (h2 : ¬ (goSplit '|' connect).headD [] = "sqlserver".toList)
    (h3 : ¬ (goSplit '|' connect).headD [] = "mysql".toList)
    (h4 : (goSplit '|' connect).headD [] = "postgres".toList) :
    NewDb connect =
      (match (goSplit '|' connect)[1]? with
       | none => NewDbResult.fatal "index out of range"
       | some p1 => NewDbResult.conn "postgres" p1 none) := by
  unfold NewDb
  rw [if_neg h1, if_neg h2, if_neg h3, if_pos h4]

/-- C6: NewDb aborts fatally (panic, never a connection) exactly when the
connection spec is malformed: an unrecognized leading token, a missing "|"
segment, or a sqlite parameter missing its "&" segment; well-formed
recognized specs always reach a connection, so the out-of-range segment
accesses are confined to the fatal branch. -/
theorem newDb_fatal_iff_malformed (connect : List Char) :
    (∃ msg, NewDb connect = NewDbResult.fatal msg) ↔
      ((goSplit '|' connect).headD [] ∉
          ["sqlite".toList, "sqlserver".toList, "mysql".toList, "postgres".toList] ∨
        (goSplit '|' connect).length < 2 ∨
        ((goSplit '|' connect).headD [] = "sqlite".toList ∧
          (goSplit '&' ((goSplit '|' connect).getD 1 [])).length < 2)) := by
  by_cases h1 : (goSplit '|' connect).headD [] = "sqlite".toList
  · cases h2 : (goSplit '|' connect)[1]? with
    | none =>
      refine ⟨fun _ => Or.inr (Or.inl ?_), fun _ => ⟨"index out of range", ?_⟩⟩
      · have := List.getElem?_eq_none_iff.mp h2
        omega
      · rw [newDb_sqlite_eq connect h1, h2]
    | some p1 =>
      have h1lt : 1 < (goSplit '|' connect).length := (List.getElem?_eq_some.mp h2).1
      have hgetD : (goSplit '|' connect).getD 1 [] = p1 := by
        rw [List.getD_eq_getElem?_getD, h2]
        rfl
      cases h3 : (goSplit '&' p1)[1]? with
      | none =>
        refine ⟨fun _ => Or.inr (Or.inr ⟨h1, ?_⟩), fun _ => ⟨"index out of range", ?_⟩⟩
        · rw [hgetD]
          have := List.getElem?_eq_none_iff.mp h3
          omega
        · rw [newDb_sqlite_eq connect h1, h2]
          show (match (goSplit '&' p1)[1]? with
            | none => NewDbResult.fatal "index out of range"
            | some j => NewDbResult.conn "sqlite" ((goSplit '&' p1).headD [])
                (if j = [] then none else some j)) = NewDbResult.fatal "index out of range"
          rw [h3]
      | some j =>
        constructor
        · rintro ⟨msg, hmsg⟩
          rw [newDb_sqlite_eq connect h1, h2] at hmsg
          have hmsg2 : (match (goSplit '&' p1)[1]? with
            | none => NewDbResult.fatal "index out of range"
            | some j2 => NewDbResult.conn "sqlite" ((goSplit '&' p1).headD [])
                (if j2 = [] then none else some j2)) = NewDbResult.fatal msg := hmsg
          rw [h3] at hmsg2
          exact NewDbResult.noConfusion hmsg2
        · intro hmal
          exfalso
          rcases hmal with hk | hlen | ⟨-, hspp⟩
          · exact hk (by rw [h1]; exact List.mem_cons_self _ _)
          · omega
          · rw [hgetD] at hspp
            have := (List.getElem?_eq_some.mp h3).1
            omega
  · by_cases h2 : (goSplit '|' connect).headD [] = "sqlserver".toList
    · cases h2b : (goSplit '|' connect)[1]? with
      | none =>
        refine ⟨fun _ => Or.inr (Or.inl ?_), fun _ => ⟨"index out of range", ?_⟩⟩
        · have := List.getElem?_eq_none_iff.mp h2b
          omega
        · rw [newDb_sqlserver_eq connect h1 h2, h2b]
      | some p1 =>
        constructor
        · rintro ⟨msg, hmsg⟩
          rw [newDb_sqlserver_eq connect h1 h2, h2b] at hmsg
          exact NewDbResult.noConfusion hmsg
        · intro hmal
          exfalso
          rcases hmal with hk | hlen | ⟨hsq, -⟩
          · exact hk (by rw [h2]; decide)
          · have := (List.getElem?_eq_some.mp h2b).1
            omega
          · exact h1 hsq
    · by_cases h3 : (goSplit '|' connect).headD [] = "mysql".toList
      · cases h3b : (goSplit '|' connect)[1]? with
        | none =>
          refine ⟨fun _ => Or.inr (Or.inl ?_), fun _ => ⟨"index out of range", ?_⟩⟩
          · have := List.getElem?_eq_none_iff.mp h3b
            omega
          · rw [newDb_mysql_eq connect h1 h2 h3, h3b]
        | some p1 =>
          constructor
          · rintro ⟨msg, hmsg⟩
            rw [newDb_mysql_eq connect h1 h2 h3, h3b] at hmsg
            exact NewDbResult.noConfusion hmsg
          · intro hmal
            exfalso
            rcases hmal with hk | hlen | ⟨hsq, -⟩
            · exact hk (by rw [h3]; decide)
            · have := (List.getElem?_eq_some.mp h3b).1
              omega
            · exact h1 hsq
      · by_cases h4 : (goSplit '|' connect).headD [] = "postgres".toList
        · cases h4b : (goSplit '|' connect)[1]? with
          | none =>
            refine ⟨fun _ => Or.inr (Or.inl ?_), fun _ => ⟨"index out of range", ?_⟩⟩
            · have := List.getElem?_eq_none_iff.mp h4b
              omega
            · rw [newDb_postgres_eq connect h1 h2 h3 h4, h4b]
          | some p1 =>
            constructor
            · rintro ⟨msg, hmsg⟩
              rw [newDb_postgres_eq connect h1 h2 h3 h4, h4b] at hmsg
              exact NewDbResult.noConfusion hmsg
            · intro hmal
              exfalso
              rcases hmal with hk | hlen | ⟨hsq, -⟩
              · exact hk (by rw [h4]; decide)
              · have := (List.getElem?_eq_some.mp h4b).1
                omega
              · exact h1 hsq
        · refine ⟨fun _ => Or.inl ?_, fun _ => ⟨"unknown db type", ?_⟩⟩
          · simp only [List.mem_cons, List.mem_singleton]
            rintro (h | h | h | h | h)
            · exact h1 h
            · exact h2 h
            · exact h3 h
            · exact h4 h
            · exact absurd h (List.not_mem_nil _)
          · exact newDb_unknown_eq connect h1 h2 h3 h4

/-- Witness for C6: an unrecognized backend kind is fatal, while the default
sqlite spec from the shipped configuration is not. -/
theorem newDb_fatal_iff_malformed_witness :
    (∃ msg, NewDb "oracle|dsn".toList = NewDbResult.fatal msg) ∧
    ¬∃ msg, NewDb "sqlite|./db/data.db&OFF".toList = NewDbResult.fatal msg := by
  constructor
  · exact (newDb_fatal_iff_malformed _).mpr (Or.inl (by decide))
  · intro hex
    have hmal := (newDb_fatal_iff_malformed _).mp hex
    revert hmal
    decide

end QDb
